import Mathlib

/-!
Shallow embedding of `src/common/src/compile.rs` (foundry's compile support
module): skip-build filters, deployed-bytecode sizing, the contract size
report, compile orchestration outcomes and target resolution.
-/

/-- Model of a filesystem path as the compile module observes it: an identity
string (for dependency-graph membership tests, which compare whole paths) and
the result of Rust's `Path::file_name()?.to_str()?`, which is `none` when the
path has no extractable final component or it is not valid UTF-8. -/
structure FsPath where
  raw : String
  fileName : Option String
  deriving DecidableEq, Repr

/-- Embedding of Rust's `str::contains` (substring search) on the character
list of the haystack: `pat` occurs contiguously inside `l`. -/
def containsSub (pat : List Char) : List Char → Bool
  | [] => pat.isEmpty
  | c :: cs => pat.isPrefixOf (c :: cs) || containsSub pat cs

/-- Rust `s.contains(pat)` for strings. -/
def strContains (s pat : String) : Bool :=
  containsSub pat.data s.data

/-- `SkipBuildFilter` from the source: a filter that excludes matching
contracts from the build (`Tests` for `.t.sol`, `Scripts` for `.s.sol`,
`Custom` for an arbitrary substring pattern). -/
inductive SkipBuildFilter where
  | Tests : SkipBuildFilter
  | Scripts : SkipBuildFilter
  | Custom : String → SkipBuildFilter
  deriving DecidableEq, Repr

namespace SkipBuildFilter

/-- `SkipBuildFilter::file_pattern`: the pattern to match against a file. -/
def file_pattern : SkipBuildFilter → String
  | .Tests => ".t.sol"
  | .Scripts => ".s.sol"
  | .Custom s => s

/-- The inner closure `exclude` of `SkipBuildFilter::is_match`:
`file.file_name()?.to_str()?` then substring containment, `None` when the
file name is not extractable. -/
def exclude (file : FsPath) (pattern : String) : Option Bool :=
  (file.fileName).map (fun file_name => strContains file_name pattern)

/-- `SkipBuildFilter::is_match` (the `FileFilter` impl): matches the file
only if the filter does not apply, i.e. the inverse of
`file.name.contains(pattern)`, with `unwrap_or_default()` (= `false`) when
no file name is extractable. -/
def is_match (self : SkipBuildFilter) (file : FsPath) : Bool :=
  !((exclude file self.file_pattern).getD false)

/-- The `From<T: AsRef<str>>` impl for `SkipBuildFilter`: literal tokens map
to `Tests` / `Scripts`, everything else becomes `Custom`. -/
def from_string (s : String) : SkipBuildFilter :=
  if s = "test" ∨ s = "tests" then .Tests
  else if s = "script" ∨ s = "scripts" then .Scripts
  else .Custom s

/-- The `FromStr` impl for `SkipBuildFilter`: `Err = Infallible` (modelled as
`Empty`), always `Ok(s.into())`. -/
def from_str (s : String) : Except Empty SkipBuildFilter :=
  .ok (from_string s)

end SkipBuildFilter

/-- `SkipBuildFilters`: bundles multiple `SkipBuildFilter` into a single
`FileFilter`. -/
structure SkipBuildFilters where
  filters : List SkipBuildFilter
  deriving DecidableEq, Repr

/-- `SkipBuildFilters::is_match`: only returns a match if no exclusion
filter matches (`iter().all(...)`). -/
def SkipBuildFilters.is_match (self : SkipBuildFilters) (file : FsPath) : Bool :=
  self.filters.all (fun filter => filter.is_match file)

/-- EIP-170 deployment size limit, `CONTRACT_SIZE_LIMIT` in the source. -/
def CONTRACT_SIZE_LIMIT : Nat := 24576

/-- `ethers_solc::artifacts::BytecodeObject` as the sizing code consumes it:
either fully linked bytes, or unlinked bytecode kept as hex text (optionally
`0x`-prefixed) with library placeholders unresolved. -/
inductive BytecodeObject where
  | Bytecode : List Nat → BytecodeObject
  | Unlinked : String → BytecodeObject
  deriving DecidableEq, Repr

/-- The artifact fields the compile module reads: the deployed bytecode
object (absent when the artifact has no deployed-bytecode representation,
i.e. `get_deployed_bytecode_object()` returns `None`) and the names of the
functions exposed by the optional ABI. -/
structure Artifact where
  deployed_bytecode : Option BytecodeObject
  abi_function_names : Option (List String)
  deriving DecidableEq, Repr

/-- Rust's `unlinked.starts_with("0x")`, as a prefix test on the text. -/
def starts_with_0x (s : String) : Bool :=
  "0x".data.isPrefixOf s.data

/-- `deployed_contract_size`: `None` when there is no deployed bytecode
object; the byte length for linked bytes; for unlinked hex text, the byte
length of the text minus 2 when it starts with `0x`, divided by two. -/
def deployed_contract_size (artifact : Artifact) : Option Nat :=
  match artifact.deployed_bytecode with
  | none => none
  | some (.Bytecode bytes) => some bytes.length
  | some (.Unlinked unlinked) =>
    let size := unlinked.utf8ByteSize
    let size := if starts_with_0x unlinked then size - 2 else size
    some (size / 2)

/-- `ContractInfo`: how big the contract is and whether it is a dev
contract (test or script) where size limits can be neglected. -/
structure ContractInfo where
  size : Nat
  is_dev_contract : Bool
  deriving DecidableEq, Repr

/-- `SizeReport`: contracts with info about their size, keyed by contract
name (the source's `BTreeMap` modelled as an association list). -/
structure SizeReport where
  contracts : List (String × ContractInfo)
  deriving DecidableEq, Repr

/-- `SizeReport::max_size`: the size of the largest contract, excluding dev
contracts, computed by the source's fold with a running maximum. -/
def SizeReport.max_size (self : SizeReport) : Nat :=
  self.contracts.foldl
    (fun max_size contract =>
      if contract.2.is_dev_contract = false ∧ max_size < contract.2.size then contract.2.size
      else max_size)
    0

/-- `SizeReport::exceeds_size_limit`: true if any contract exceeds the size
limit, excluding dev contracts. -/
def SizeReport.exceeds_size_limit (self : SizeReport) : Bool :=
  decide (CONTRACT_SIZE_LIMIT < self.max_size)

/-- Specification-side reading of the size bound: the maximum size over the
contracts whose dev flag is false (0 when there are none). -/
def SizeReport.max_non_dev_size (self : SizeReport) : Nat :=
  (self.contracts.filter (fun contract => !contract.2.is_dev_contract)).foldl
    (fun m contract => Nat.max m contract.2.size) 0

/-- The count of dev functions in a contract's ABI function list, from
`handle_output`: functions whose name `is_test()` or equals `IS_TEST` or
`IS_SCRIPT`. -/
def dev_function_count (is_test : String → Bool) (fns : List String) : Nat :=
  fns.countP (fun func => is_test func || func == "IS_TEST" || func == "IS_SCRIPT")

/-- The `ContractInfo` that `handle_output` inserts for one artifact: size
from `deployed_contract_size(...).unwrap_or_default()` and the dev flag from
`dev_functions.count() > 0`, given the artifact's ABI function names. -/
def mk_contract_info (is_test : String → Bool) (artifact : Artifact) (fns : List String) :
    ContractInfo :=
  { size := (deployed_contract_size artifact).getD 0
    is_dev_contract := decide (0 < dev_function_count is_test fns) }

/-- The row-building loop of `handle_output`: one `ContractInfo` per
artifact; `none` models the source's `abi.as_ref().unwrap()` panicking on an
artifact without an ABI. -/
def size_report_rows (is_test : String → Bool) :
    List (String × Artifact) → Option (List (String × ContractInfo))
  | [] => some []
  | (name, artifact) :: rest =>
    match artifact.abi_function_names with
    | none => none
    | some fns =>
      (size_report_rows is_test rest).map
        (fun rows => (name, mk_contract_info is_test artifact fns) :: rows)

/-- The `SizeReport` that `handle_output` builds from the compile output's
artifacts. -/
def build_size_report (is_test : String → Bool) (artifacts : List (String × Artifact)) :
    Option SizeReport :=
  (size_report_rows is_test artifacts).map (fun rows => { contracts := rows })

/-- The fields of `ProjectCompileOutput` the orchestration reads: the error
flag, the incremental-cache "unchanged" flag, the diagnostic text
(`output.to_string()`), and the artifacts. -/
structure CompileOutput where
  has_compiler_errors : Bool
  is_unchanged : Bool
  diagnostics : String
  artifacts : List (String × Artifact)
  deriving DecidableEq, Repr

/-- Terminal outcome of one compile invocation. `NothingToCompile` models
the `println + process::exit(0)` short-circuit, `SizeLimitExceeded` the
`process::exit(1)` after the size report, `PanicMissingAbi` the unwrap of a
missing ABI, and `Success` carries the returned output. -/
inductive CompileOutcome where
  | NothingToCompile : CompileOutcome
  | CompilerError : String → CompileOutcome
  | PanicMissingAbi : CompileOutcome
  | SizeLimitExceeded : CompileOutcome
  | Success : CompileOutput → CompileOutcome
  deriving DecidableEq, Repr

/-- `ProjectCompiler::handle_output` followed by `compile_with` returning
`Ok(output)`: name printing has no semantic effect; when sizes are printed
the size report is built and, if it exceeds the limit, the process exits
with a failure. -/
def handle_output (is_test : String → Bool) (print_sizes : Bool) (output : CompileOutput) :
    CompileOutcome :=
  if print_sizes then
    match build_size_report is_test output.artifacts with
    | none => .PanicMissingAbi
    | some report =>
      if report.exceeds_size_limit then .SizeLimitExceeded else .Success output
  else .Success output

/-- `ProjectCompiler::compile_with`: short-circuits with the
nothing-to-compile exit when the project has no input files (the toolchain
closure is never invoked), fails with the toolchain's diagnostic text on
compiler errors, and otherwise runs `handle_output` on both the unchanged
and the changed paths. -/
def compile_with (is_test : String → Bool) (print_sizes : Bool)
    (has_input_files : Bool) (toolchain : Unit → CompileOutput) : CompileOutcome :=
  if has_input_files = false then .NothingToCompile
  else
    let output := toolchain ()
    if output.has_compiler_errors then .CompilerError output.diagnostics
    else handle_output is_test print_sizes output

/-- `ProjectCompiler`: the settings of the printing compile entry point. -/
structure ProjectCompiler where
  print_names : Bool
  print_sizes : Bool
  filters : List SkipBuildFilter
  deriving DecidableEq, Repr

/-- `ProjectCompiler::compile`: full compile when the filter list is empty,
sparse compile otherwise, both through `compile_with`. The two toolchain
invocations are passed as thunks; `print_names` only prints and is dropped
by the embedding. -/
def ProjectCompiler.compile (self : ProjectCompiler) (is_test : String → Bool)
    (has_input_files : Bool)
    (toolchain_full toolchain_sparse : Unit → CompileOutput) : CompileOutcome :=
  compile_with is_test self.print_sizes has_input_files
    (if self.filters.isEmpty then toolchain_full else toolchain_sparse)

/-- `suppress_compile`: runs the toolchain under a no-op reporter and fails
only on compiler errors; no input-file check, no size report. -/
def suppress_compile (toolchain_full : Unit → CompileOutput) : CompileOutcome :=
  let output := toolchain_full ()
  if output.has_compiler_errors then .CompilerError output.diagnostics
  else .Success output

/-- `suppress_compile_sparse`: same shape as `suppress_compile` over the
sparse toolchain invocation. -/
def suppress_compile_sparse (toolchain_sparse : Unit → CompileOutput) : CompileOutcome :=
  let output := toolchain_sparse ()
  if output.has_compiler_errors then .CompilerError output.diagnostics
  else .Success output

/-- `suppress_compile_with_filter`: dispatches on whether the skip list is
empty, exactly like `ProjectCompiler::compile` chooses full vs sparse. -/
def suppress_compile_with_filter (skip : List SkipBuildFilter)
    (toolchain_full toolchain_sparse : Unit → CompileOutput) : CompileOutcome :=
  if skip.isEmpty then suppress_compile toolchain_full
  else suppress_compile_sparse toolchain_sparse

/-- The action `compile_target_with_filter` dispatches to, after the
dependency-graph membership test. -/
inductive TargetCompileAction where
  | StandaloneVerifyRejected : TargetCompileAction
  | CompileFilesDirect : List FsPath → Bool → TargetCompileAction
  | SuppressCompileWithFilter : List SkipBuildFilter → TargetCompileAction
  | CompileWithFilter : Bool → Bool → List SkipBuildFilter → TargetCompileAction
  deriving DecidableEq, Repr

/-- `compile_target_with_filter`: if the target path is not a member of the
resolved graph's file set, either bail (when `verify`) or compile just that
file with `compile_files`; otherwise compile the project, silently or with
printing disabled (`compile_with_filter(project, false, false, skip)`). -/
def compile_target_with_filter (graph_files : List FsPath) (target_path : FsPath)
    (silent verify : Bool) (skip : List SkipBuildFilter) : TargetCompileAction :=
  if (graph_files.contains target_path) = false then
    if verify then .StandaloneVerifyRejected
    else .CompileFilesDirect [target_path] silent
  else
    if silent then .SuppressCompileWithFilter skip
    else .CompileWithFilter false false skip

/-- A concrete oversized non-dev artifact: 30000 linked bytes, empty ABI. -/
def big_artifact : Artifact :=
  { deployed_bytecode := some (.Bytecode (List.replicate 30000 0))
    abi_function_names := some [] }

/-- A concrete error-free toolchain output containing only `big_artifact`. -/
def big_output : CompileOutput :=
  { has_compiler_errors := false
    is_unchanged := false
    diagnostics := ""
    artifacts := [("Big", big_artifact)] }

/-! Helper lemmas. -/

/-- The running-maximum fold of `SizeReport.max_size` agrees, from any
accumulator, with a plain `Nat.max` fold over the non-dev contracts. -/
theorem max_size_fold_eq (l : List (String × ContractInfo)) (m : Nat) :
    l.foldl
      (fun acc c => if c.2.is_dev_contract = false ∧ acc < c.2.size then c.2.size else acc) m
      = (l.filter (fun c => !c.2.is_dev_contract)).foldl
          (fun acc c => Nat.max acc c.2.size) m := by
  induction l generalizing m with
  | nil => rfl
  | cons c cs ih =>
    cases hdev : c.2.is_dev_contract with
    | true => simp [List.foldl_cons, List.filter_cons, hdev, ih]
    | false =>
      have hstep : (if m < c.2.size then c.2.size else m) = Nat.max m c.2.size := by
        rcases Nat.lt_or_ge m c.2.size with hlt | hge
        · simp [hlt, Nat.max_eq_right (Nat.le_of_lt hlt)]
        · simp [Nat.not_lt.mpr hge, Nat.max_eq_left hge]
      simp [List.foldl_cons, List.filter_cons, hdev, hstep, ih]

/-- A `Nat.max` fold stays below any bound dominating the accumulator and
every listed size. -/
theorem fold_max_le (k : Nat) (l : List (String × ContractInfo)) :
    ∀ (m : Nat), m ≤ k → (∀ c ∈ l, c.2.size ≤ k) →
    l.foldl (fun acc c => Nat.max acc c.2.size) m ≤ k := by
  induction l with
  | nil => intro m hm _; simpa using hm
  | cons c cs ih =>
    intro m hm hall
    simp only [List.foldl_cons]
    exact ih _ (Nat.max_le.mpr ⟨hm, hall c (by simp)⟩)
      (fun d hd => hall d (List.mem_cons_of_mem _ hd))

/-- An ASCII character is one UTF-8 byte. -/
theorem utf8Size_of_ascii (c : Char) (h : c.toNat < 128) : c.utf8Size = 1 := by
  unfold Char.utf8Size
  have hle : c.val ≤ UInt32.ofNatCore 0x7F (by decide) := by
    change c.val.toNat ≤ _
    simpa [UInt32.ofNatCore] using Nat.le_of_lt_succ h
  rw [if_pos hle]

/-- For ASCII text the UTF-8 byte length equals the character count. -/
theorem utf8ByteSize_of_ascii (s : String) (h : ∀ c ∈ s.data, c.toNat < 128) :
    s.utf8ByteSize = s.length := by
  cases s with
  | mk data =>
    simp only [String.utf8ByteSize_mk, String.length]
    induction data with
    | nil => rfl
    | cons c cs ih =>
      have hc := utf8Size_of_ascii c (h c (by simp))
      simp only [String.utf8Len_cons, hc, List.length_cons,
        ih (fun d hd => h d (List.mem_cons_of_mem _ hd))]

/-- Every row the report-building loop emits comes from a listed artifact
whose ABI is present, and its dev flag is the existential classification. -/
theorem size_report_rows_dev_flag (is_test : String → Bool) :
    ∀ (arts : List (String × Artifact)) (rows : List (String × ContractInfo)),
      size_report_rows is_test arts = some rows →
      ∀ p ∈ rows, ∃ a fns, (p.1, a) ∈ arts ∧ a.abi_function_names = some fns ∧
        (p.2.is_dev_contract = true ↔
          ∃ n ∈ fns, is_test n = true ∨ n = "IS_TEST" ∨ n = "IS_SCRIPT") := by
  intro arts
  induction arts with
  | nil =>
    intro rows hrows p hp
    simp [size_report_rows] at hrows
    subst hrows
    simp at hp
  | cons hd rest ih =>
    intro rows hrows p hp
    obtain ⟨name, artifact⟩ := hd
    simp only [size_report_rows] at hrows
    cases habi : artifact.abi_function_names with
    | none => simp [habi] at hrows
    | some fns =>
      rw [habi] at hrows
      cases hrest : size_report_rows is_test rest with
      | none => simp [hrest] at hrows
      | some rows0 =>
        rw [hrest] at hrows
        simp only [Option.map_some', Option.some.injEq] at hrows
        subst hrows
        rcases List.mem_cons.mp hp with hph | hpt
        · subst hph
          refine ⟨artifact, fns, List.mem_cons_self _ _, habi, ?_⟩
          simp only [mk_contract_info, dev_function_count, decide_eq_true_eq,
            List.countP_pos_iff]
          constructor
          · rintro ⟨n, hn, hpred⟩
            refine ⟨n, hn, ?_⟩
            simpa [or_assoc] using hpred
          · rintro ⟨n, hn, hpred⟩
            refine ⟨n, hn, ?_⟩
            simpa [or_assoc] using hpred
        · obtain ⟨a, fns2, hmem, habi2, hiff⟩ := ih rows0 hrest p hpt
          exact ⟨a, fns2, List.mem_cons_of_mem _ hmem, habi2, hiff⟩

/-- The empty pattern occurs in every character list. -/
theorem containsSub_nil_eq_true (l : List Char) : containsSub [] l = true := by
  cases l <;> simp [containsSub, List.isPrefixOf]

/-! Claim theorems. -/

/-- C1: `exceeds_size_limit` is true iff the maximum size among contracts
whose dev flag is false strictly exceeds 24576; a report in which every
contract above 24576 bytes is a dev contract reports false, and dev
contract sizes never influence `max_size` (which coincides with the maximum
over non-dev contracts). -/
theorem exceeds_limit_iff (r : SizeReport) :
    (r.exceeds_size_limit = true ↔ 24576 < r.max_non_dev_size)
    ∧ r.max_size = r.max_non_dev_size
    ∧ ((∀ p ∈ r.contracts, 24576 < p.2.size → p.2.is_dev_contract = true) →
        r.exceeds_size_limit = false) := by
  have hmax : r.max_size = r.max_non_dev_size := max_size_fold_eq r.contracts 0
  refine ⟨by simp [SizeReport.exceeds_size_limit, CONTRACT_SIZE_LIMIT, hmax], hmax, ?_⟩
  intro hall
  have hle : r.max_non_dev_size ≤ 24576 := by
    apply fold_max_le _ _ _ (Nat.zero_le _)
    intro c hc
    have hcmem : c ∈ r.contracts := List.mem_of_mem_filter hc
    by_contra hgt
    have h24 : 24576 < c.2.size := Nat.lt_of_not_le (fun hle2 => hgt hle2)
    have hdev := hall c hcmem h24
    have hflt := List.of_mem_filter hc
    simp [hdev] at hflt
  simp only [SizeReport.exceeds_size_limit, CONTRACT_SIZE_LIMIT, hmax]
  simpa using Nat.not_lt.mpr hle

/-- Witness for C1: a report whose only oversize contract is a dev contract
does not exceed the limit. -/
theorem exceeds_limit_iff_witness :
    SizeReport.exceeds_size_limit ⟨[("A", ⟨30000, true⟩)]⟩ = false :=
  (exceeds_limit_iff ⟨[("A", ⟨30000, true⟩)]⟩).2.2 (by decide)

/-- C2: `deployed_contract_size` is absent without a deployed-bytecode
object, is the exact byte length for linked bytecode, and for unlinked
(ASCII hex) text is the character count after the optional `0x` prefix
divided by two; a linked value of n bytes and an unlinked value of 2n
post-prefix characters yield the same size. -/
theorem deployed_size_spec (a : Artifact) :
    (a.deployed_bytecode = none → deployed_contract_size a = none)
    ∧ (∀ bytes, a.deployed_bytecode = some (.Bytecode bytes) →
        deployed_contract_size a = some bytes.length)
    ∧ (∀ s, a.deployed_bytecode = some (.Unlinked s) →
        (∀ c ∈ s.data, c.toNat < 128) →
        deployed_contract_size a
          = some ((s.length - (if starts_with_0x s then 2 else 0)) / 2))
    ∧ (∀ (a1 a2 : Artifact) (bytes : List Nat) (s : String),
        a1.deployed_bytecode = some (.Bytecode bytes) →
        a2.deployed_bytecode = some (.Unlinked s) →
        (∀ c ∈ s.data, c.toNat < 128) →
        s.length - (if starts_with_0x s then 2 else 0) = 2 * bytes.length →
        deployed_contract_size a2 = deployed_contract_size a1) := by
  have hunl : ∀ (b : Artifact) (s : String), b.deployed_bytecode = some (.Unlinked s) →
      (∀ c ∈ s.data, c.toNat < 128) →
      deployed_contract_size b
        = some ((s.length - (if starts_with_0x s then 2 else 0)) / 2) := by
    intro b s hb hascii
    have hbs := utf8ByteSize_of_ascii s hascii
    cases hsw : starts_with_0x s <;>
      simp [deployed_contract_size, hb, hsw, hbs]
  refine ⟨fun h => by simp [deployed_contract_size, h],
    fun bytes h => by simp [deployed_contract_size, h], hunl a, ?_⟩
  intro a1 a2 bytes s h1 h2 hascii hlen
  rw [hunl a2 s h2 hascii, hlen]
  simp only [deployed_contract_size, h1, Option.some.injEq]
  omega

/-- Witness for C2: the unlinked hex text 0xabcd sizes to 2 bytes and a
missing bytecode object sizes to none. -/
theorem deployed_size_spec_witness :
    (deployed_contract_size ⟨some (.Unlinked "0xabcd"), none⟩
      = some (("0xabcd".length - (if starts_with_0x "0xabcd" then 2 else 0)) / 2))
    ∧ deployed_contract_size ⟨none, none⟩ = none :=
  ⟨(deployed_size_spec ⟨some (.Unlinked "0xabcd"), none⟩).2.2.1 "0xabcd" rfl (by decide),
    (deployed_size_spec ⟨none, none⟩).1 rfl⟩

/-- C3: every contract placed in the size report has its dev flag true iff
its artifact's ABI exposes a function whose name the naming convention
recognizes as a test function, or a function named exactly IS_TEST or
exactly IS_SCRIPT; stated for every naming-convention predicate. -/
theorem build_report_dev_flag (is_test : String → Bool)
    (arts : List (String × Artifact)) (r : SizeReport)
    (h : build_size_report is_test arts = some r) :
    ∀ p ∈ r.contracts, ∃ a fns, (p.1, a) ∈ arts ∧ a.abi_function_names = some fns ∧
      (p.2.is_dev_contract = true ↔
        ∃ n ∈ fns, is_test n = true ∨ n = "IS_TEST" ∨ n = "IS_SCRIPT") := by
  intro p hp
  obtain ⟨rows, hrows, hr⟩ := Option.map_eq_some'.mp h
  subst hr
  exact size_report_rows_dev_flag is_test arts rows hrows p hp

/-- Witness for C3: a contract whose ABI exposes IS_TEST is classified as a
dev contract. -/
theorem build_report_dev_flag_witness :
    ∃ a fns, ("A", a) ∈ [("A", (⟨none, some ["IS_TEST"]⟩ : Artifact))]
      ∧ a.abi_function_names = some fns
      ∧ (((⟨0, true⟩ : ContractInfo).is_dev_contract = true) ↔
          ∃ n ∈ fns, (fun _ => false) n = true ∨ n = "IS_TEST" ∨ n = "IS_SCRIPT") :=
  build_report_dev_flag (fun _ => false) [("A", ⟨none, some ["IS_TEST"]⟩)]
    ⟨[("A", ⟨0, true⟩)]⟩ (by decide) ("A", ⟨0, true⟩) (by decide)

/-- C4 counterexample: on the same error-free toolchain result containing a
30000-byte non-dev contract and a project with input files, the printing
entry point with size printing enabled fails with the size-limit-exceeded
outcome while the silent entry point succeeds, so the two entry points do
not produce identical success/failure outcomes. -/
theorem suppress_vs_compile_cex :
    ProjectCompiler.compile ⟨false, true, []⟩ (fun _ => false) true
        (fun _ => big_output) (fun _ => big_output) = .SizeLimitExceeded
    ∧ suppress_compile_with_filter [] (fun _ => big_output) (fun _ => big_output)
        = .Success big_output := by
  have hsize : deployed_contract_size big_artifact = some 30000 := by
    show some (List.replicate 30000 (0 : Nat)).length = some 30000
    rw [List.length_replicate]
  have habi : big_artifact.abi_function_names = some [] := rfl
  have hinfo : mk_contract_info (fun _ => false) big_artifact [] = ⟨30000, false⟩ := by
    simp [mk_contract_info, hsize, dev_function_count]
  have herr : big_output.has_compiler_errors = false := rfl
  have harts : big_output.artifacts = [("Big", big_artifact)] := rfl
  have hrows : build_size_report (fun _ => false) big_output.artifacts
      = some ⟨[("Big", ⟨30000, false⟩)]⟩ := by
    rw [harts]
    simp [build_size_report, size_report_rows, habi, hinfo]
  constructor
  · simp [ProjectCompiler.compile, compile_with, handle_output, herr, hrows,
      SizeReport.exceeds_size_limit, SizeReport.max_size, CONTRACT_SIZE_LIMIT]
  · simp [suppress_compile_with_filter, suppress_compile, herr]

/-- C4 amended: when the project has input files and size printing is
disabled, the printing entry point and the silent entry point produce the
same outcome (failing exactly on compiler errors with the same diagnostic
payload); the silent entry points can only end in a compiler error or a
success, never in the nothing-to-compile short-circuit or the
size-limit-exceeded outcome. -/
theorem suppress_agrees_without_size_printing (is_test : String → Bool)
    (print_names : Bool) (skip : List SkipBuildFilter)
    (tf ts : Unit → CompileOutput) :
    ProjectCompiler.compile ⟨print_names, false, skip⟩ is_test true tf ts
      = suppress_compile_with_filter skip tf ts
    ∧ (∀ tc : Unit → CompileOutput,
        (suppress_compile tc = .CompilerError (tc ()).diagnostics
          ∨ suppress_compile tc = .Success (tc ()))
        ∧ (suppress_compile_sparse tc = .CompilerError (tc ()).diagnostics
          ∨ suppress_compile_sparse tc = .Success (tc ()))) := by
  constructor
  · by_cases hskip : skip.isEmpty <;>
      simp [ProjectCompiler.compile, compile_with, handle_output,
        suppress_compile_with_filter, suppress_compile, suppress_compile_sparse, hskip]
  · intro tc
    constructor <;>
      · simp only [suppress_compile, suppress_compile_sparse]
        split <;> simp

/-- C5: with no input files the compile operation terminates in the explicit
nothing-to-compile outcome, which does not depend on the toolchain closure
(the toolchain is never invoked) and carries no output. -/
theorem compile_with_nothing_to_compile (is_test : String → Bool) (print_sizes : Bool)
    (t1 t2 : Unit → CompileOutput) :
    compile_with is_test print_sizes false t1 = .NothingToCompile
    ∧ compile_with is_test print_sizes false t1 = compile_with is_test print_sizes false t2 :=
  ⟨rfl, rfl⟩

/-- C6: a target path outside the resolved graph's file set is rejected
with the standalone-verify error when verify is requested, and otherwise is
compiled alone through compile_files with the silent flag, bypassing the
caller's filters. -/
theorem compile_target_standalone (graph_files : List FsPath) (target_path : FsPath)
    (silent : Bool) (skip : List SkipBuildFilter)
    (h : target_path ∉ graph_files) :
    compile_target_with_filter graph_files target_path silent true skip
      = .StandaloneVerifyRejected
    ∧ compile_target_with_filter graph_files target_path silent false skip
      = .CompileFilesDirect [target_path] silent := by
  have hc : graph_files.contains target_path = false := by
    simpa using h
  constructor <;> simp [compile_target_with_filter, hc, h]

/-- Witness for C6: a standalone file against an empty graph. -/
theorem compile_target_standalone_witness :
    compile_target_with_filter [] ⟨"X.sol", some "X.sol"⟩ true true []
      = .StandaloneVerifyRejected
    ∧ compile_target_with_filter [] ⟨"X.sol", some "X.sol"⟩ true false []
      = .CompileFilesDirect [⟨"X.sol", some "X.sol"⟩] true :=
  compile_target_standalone [] ⟨"X.sol", some "X.sol"⟩ true [] (by decide)

/-- C7: each exclusion filter's is_match is false exactly when the path has
an extractable file name containing the filter's pattern (.t.sol for Tests,
.s.sol for Scripts, the custom substring for Custom), and a path with no
extractable file name is always included by every filter. -/
theorem skip_filter_is_match_spec (p : FsPath) :
    (SkipBuildFilter.is_match .Tests p = false
      ↔ ∃ n, p.fileName = some n ∧ strContains n ".t.sol" = true)
    ∧ (SkipBuildFilter.is_match .Scripts p = false
      ↔ ∃ n, p.fileName = some n ∧ strContains n ".s.sol" = true)
    ∧ (∀ s, SkipBuildFilter.is_match (.Custom s) p = false
      ↔ ∃ n, p.fileName = some n ∧ strContains n s = true)
    ∧ (p.fileName = none → ∀ f, SkipBuildFilter.is_match f p = true) := by
  cases hp : p.fileName with
  | none =>
    simp [SkipBuildFilter.is_match, SkipBuildFilter.exclude, hp]
  | some n =>
    simp [SkipBuildFilter.is_match, SkipBuildFilter.exclude, hp,
      SkipBuildFilter.file_pattern]

/-- Witness for C7: a path without an extractable file name is included by
the Tests filter. -/
theorem skip_filter_is_match_spec_witness :
    SkipBuildFilter.is_match .Tests ⟨"..", none⟩ = true :=
  (skip_filter_is_match_spec ⟨"..", none⟩).2.2.2 rfl .Tests

/-- C8: the bundled filter set matches a path iff every individual filter
matches it; for two filters this is the boolean conjunction, and the set
excludes a path as soon as any single filter excludes it. -/
theorem skip_filters_and_spec (fs : List SkipBuildFilter) (p : FsPath) :
    (SkipBuildFilters.is_match ⟨fs⟩ p = true ↔ ∀ f ∈ fs, f.is_match p = true)
    ∧ (∀ f1 f2, SkipBuildFilters.is_match ⟨[f1, f2]⟩ p
        = (f1.is_match p && f2.is_match p))
    ∧ (SkipBuildFilters.is_match ⟨fs⟩ p = false ↔ ∃ f ∈ fs, f.is_match p = false) := by
  refine ⟨by simp [SkipBuildFilters.is_match, List.all_eq_true], ?_, ?_⟩
  · intro f1 f2
    simp [SkipBuildFilters.is_match]
  · simp [SkipBuildFilters.is_match, List.all_eq_false]

/-- C9: filter parsing is total: test/tests parse to Tests, script/scripts
parse to Scripts, every other string parses to Custom with that string, and
from_str always returns ok. -/
theorem from_string_total_spec :
    (∀ s : String, SkipBuildFilter.from_str s = .ok (SkipBuildFilter.from_string s))
    ∧ SkipBuildFilter.from_string "test" = .Tests
    ∧ SkipBuildFilter.from_string "tests" = .Tests
    ∧ SkipBuildFilter.from_string "script" = .Scripts
    ∧ SkipBuildFilter.from_string "scripts" = .Scripts
    ∧ (∀ s : String, s ≠ "test" → s ≠ "tests" → s ≠ "script" → s ≠ "scripts" →
        SkipBuildFilter.from_string s = .Custom s) := by
  refine ⟨fun s => rfl, by decide, by decide, by decide, by decide, ?_⟩
  intro s h1 h2 h3 h4
  simp [SkipBuildFilter.from_string, h1, h2, h3, h4]

/-- Witness for C9: an unrecognized string parses to the custom filter
carrying that string. -/
theorem from_string_total_spec_witness :
    SkipBuildFilter.from_string "Foo.sol" = .Custom "Foo.sol" :=
  from_string_total_spec.2.2.2.2.2 "Foo.sol" (by decide) (by decide) (by decide) (by decide)

/-- C10: the custom filter built from the empty pattern excludes every path
with an extractable file name, since the empty substring occurs in every
file name. -/
theorem empty_custom_excludes (p : FsPath) (n : String) (h : p.fileName = some n) :
    SkipBuildFilter.is_match (.Custom "") p = false := by
  simp [SkipBuildFilter.is_match, SkipBuildFilter.exclude, SkipBuildFilter.file_pattern,
    h, strContains, containsSub_nil_eq_true]

/-- Witness for C10: a well-formed source file is excluded by the empty
custom pattern. -/
theorem empty_custom_excludes_witness :
    SkipBuildFilter.is_match (.Custom "") ⟨"a/B.sol", some "B.sol"⟩ = false :=
  empty_custom_excludes ⟨"a/B.sol", some "B.sol"⟩ "B.sol" rfl
